import Mathlib

/-!
Shallow embedding of `matchzoo/generators/point_generator.py`
(`PointGenerator._get_batch_of_transformed_samples`) and proofs about it.

The generator holds five materialized columnar arrays (`x_left`, `x_right`,
`y`, `id_left`, `id_right`) produced by `transform_data` from the input
`DataPack`, plus the task object.  A batch request receives an
`index_array` of row indices and returns a features mapping together with
a targets array; the targets depend on the task variant.  numpy indexing
semantics matter: a scalar index `i` into an axis of length `n` resolves
to `i` when `0 <= i < n`, to `n + i` when `-n <= i < 0`, and raises
`IndexError` otherwise; fancy indexing `y[index_array]` raises when any
index is out of bounds.  The method only reads attributes of `self`, which
the embedding records by threading the generator state through the call
and returning it alongside the result.
-/

set_option autoImplicit false

namespace MatchZoo

/-- Task variants: `tasks.Ranking`, `tasks.Classification` (which carries
`_num_classes`), or any other object, which the method rejects. -/
inductive Task where
  | ranking
  | classification (numClasses : Nat)
  | invalid (descr : String)
  deriving Repr, DecidableEq

/-- Errors the method can raise: numpy `IndexError` from an out-of-bounds
index, or the explicit `ValueError` for an unrecognized task. -/
inductive BatchError where
  | indexError
  | valueError (msg : String)
  deriving Repr, DecidableEq

/-- The generator's materialized state after `__init__` ran
`transform_data`: the five columnar arrays and the task.  `α` is the type
of a text sequence, `ι` the type of an id. -/
structure PointGenerator (α ι : Type) where
  task : Task
  x_left : List α
  x_right : List α
  y : List Int
  id_left : List ι
  id_right : List ι
  deriving Repr, DecidableEq

/-- All five columns come from the same dataframe, so they have one common
number of rows. -/
structure PointGenerator.WellFormed {α ι : Type} (g : PointGenerator α ι) : Prop where
  hxl : g.x_left.length = g.y.length
  hxr : g.x_right.length = g.y.length
  hil : g.id_left.length = g.y.length
  hir : g.id_right.length = g.y.length

/-- The targets half of the returned pair: for Ranking a 1-D array of
labels, for Classification a 2-D one-hot array. -/
inductive Targets where
  | ranking (ys : List Int)
  | classification (rows : List (List Int))
  deriving Repr, DecidableEq

/-- The features dictionary of the returned pair. -/
structure BatchFeatures (α ι : Type) where
  x_left : List α
  x_right : List α
  id_left : List ι
  id_right : List ι
  deriving Repr, DecidableEq

/-- numpy scalar index resolution on an axis of length `n`: nonnegative
indices must be `< n`, negative indices wrap around from the end. -/
def npResolve (n : Nat) (i : Int) : Option Nat :=
  if 0 ≤ i then
    if i < (n : Int) then some i.toNat else none
  else
    if 0 ≤ (n : Int) + i then some ((n : Int) + i).toNat else none

/-- numpy fancy indexing `xs[idx]` with nonnegative indices: gathers the
elements, failing if any index is out of bounds. -/
def npGather {γ : Type} (xs : List γ) : List Nat → Option (List γ)
  | [] => some []
  | i :: is =>
    match xs[i]?, npGather xs is with
    | some a, some as => some (a :: as)
    | _, _ => none

/-- The single statement `batch_y[i, label] = 1`: look up row `i` of the
matrix, resolve `label` against the row length with numpy semantics, and
set that entry to `1`. -/
def setOneHotEntry (m : List (List Int)) (i : Nat) (label : Int) :
    Except BatchError (List (List Int)) :=
  match m[i]? with
  | none => .error .indexError
  | some row =>
    match npResolve row.length label with
    | none => .error .indexError
    | some j => .ok (m.set i (row.set j 1))

/-- The loop `for i, label in enumerate(self.y[index_array]): batch_y[i, label] = 1`,
started at row index `i`. -/
def writeOneHots (m : List (List Int)) (i : Nat) :
    List Int → Except BatchError (List (List Int))
  | [] => .ok m
  | label :: rest =>
    match setOneHotEntry m i label with
    | .error e => .error e
    | .ok m' => writeOneHots m' (i + 1) rest

/-- The Classification branch: allocate
`np.zeros((batch_size, self._task._num_classes))` and run the one-hot
write loop over the gathered labels. -/
def classificationTargets (numClasses batchSize : Nat) (labels : List Int) :
    Except BatchError (List (List Int)) :=
  writeOneHots (List.replicate batchSize (List.replicate numClasses 0)) 0 labels

/-- The message of the `ValueError` raised for an unrecognized task.  The
source builds it from a plain (not `f`-prefixed) string literal, so the
placeholder text is part of the message. -/
def invalidTaskMsg : String :=
  "\x7bself._task\x7d is not a valid target mode, " ++
    ":class:`Ranking` and :class:`Classification` expected."

/-- Computes `batch_y` by task variant: Ranking returns `self.y` whole,
Classification gathers `self.y[index_array]` and one-hot encodes, any
other task raises `ValueError`. -/
def computeTargets {α ι : Type} (g : PointGenerator α ι) (index_array : List Nat) :
    Except BatchError Targets :=
  match g.task with
  | .ranking => .ok (.ranking g.y)
  | .classification numClasses =>
    match npGather g.y index_array with
    | none => .error .indexError
    | some labels =>
      (classificationTargets numClasses index_array.length labels).map
        Targets.classification
  | .invalid _ => .error (.valueError invalidTaskMsg)

/-- The row-gathering loop `for key, val in enumerate(index_array)`:
appends `self.x_left[val]`, `self.x_right[val]`, `self.id_left[val]`,
`self.id_right[val]` in input order. -/
def gatherRows {α ι : Type} (g : PointGenerator α ι) :
    List Nat → Except BatchError (List α × List α × List ι × List ι)
  | [] => .ok ([], [], [], [])
  | v :: vs =>
    match g.x_left[v]?, g.x_right[v]?, g.id_left[v]?, g.id_right[v]? with
    | some a, some b, some c, some d =>
      (gatherRows g vs).map fun r => (a :: r.1, b :: r.2.1, c :: r.2.2.1, d :: r.2.2.2)
    | _, _, _, _ => .error .indexError

/-- The whole of `_get_batch_of_transformed_samples`: compute `batch_y`
first (the source's `if`/`elif`/`else`), then gather the feature rows,
and return the `(features, targets)` pair.  The second component of the
result is the generator state after the call; the method performs no
attribute assignment, so the state passes through unchanged. -/
def getBatch {α ι : Type} (g : PointGenerator α ι) (index_array : List Nat) :
    Except BatchError (BatchFeatures α ι × Targets) × PointGenerator α ι :=
  (match computeTargets g index_array with
   | .error e => .error e
   | .ok targets =>
     match gatherRows g index_array with
     | .error e => .error e
     | .ok r => .ok (⟨r.1, r.2.1, r.2.2.1, r.2.2.2⟩, targets),
   g)

/-- A one-hot row of length `numClasses` with its `1` at resolved column
`j`: what one pass of the write loop leaves in a zero row. -/
def oneHotRow (numClasses j : Nat) : List Int :=
  (List.replicate numClasses 0).set j 1

/-- One label's contribution viewed functionally: resolve it against the
row length and produce the one-hot row, or fail. -/
def oneHotOf (numClasses : Nat) (label : Int) : Except BatchError (List Int) :=
  match npResolve numClasses label with
  | some j => .ok (oneHotRow numClasses j)
  | none => .error .indexError

/-- The write loop viewed functionally: the list of one-hot rows the loop
leaves behind, stopping at the first unresolvable label. -/
def oneHotsOf (numClasses : Nat) : List Int → Except BatchError (List (List Int))
  | [] => .ok []
  | l :: ls =>
    match oneHotOf numClasses l with
    | .error e => .error e
    | .ok r =>
      match oneHotsOf numClasses ls with
      | .error e => .error e
      | .ok rs => .ok (r :: rs)

/-! ### Lemmas about numpy index resolution and one-hot rows -/

theorem npResolve_of_nonneg {C : Nat} {i : Int} (h0 : 0 ≤ i) (hC : i < (C : Int)) :
    npResolve C i = some i.toNat := by
  simp [npResolve, h0, hC]

theorem npResolve_of_neg {C : Nat} {i : Int} (h0 : i < 0) (hC : -(C : Int) ≤ i) :
    npResolve C i = some ((C : Int) + i).toNat := by
  have h1 : ¬ (0 ≤ i) := by omega
  have h2 : 0 ≤ (C : Int) + i := by omega
  simp [npResolve, h1, h2]

theorem npResolve_eq_none {C : Nat} {i : Int}
    (h : i < -(C : Int) ∨ (C : Int) ≤ i) : npResolve C i = none := by
  rcases h with h | h
  · have h1 : ¬ (0 ≤ i) := by omega
    have h2 : ¬ (0 ≤ (C : Int) + i) := by omega
    simp [npResolve, h1, h2]
  · have h1 : 0 ≤ i := by omega
    have h2 : ¬ (i < (C : Int)) := by omega
    simp [npResolve, h1, h2]

theorem npResolve_isSome_of_inbounds {C : Nat} {i : Int}
    (h : -(C : Int) ≤ i ∧ i < (C : Int)) : (npResolve C i).isSome := by
  rcases le_or_lt 0 i with h0 | h0
  · rw [npResolve_of_nonneg h0 h.2]; rfl
  · rw [npResolve_of_neg h0 h.1]; rfl

theorem npResolve_lt {C : Nat} {i : Int} {j : Nat}
    (h : npResolve C i = some j) : j < C := by
  unfold npResolve at h
  split at h <;> split at h <;> simp_all <;> omega

theorem oneHotRow_length (C j : Nat) : (oneHotRow C j).length = C := by
  simp [oneHotRow]

theorem oneHotRow_getElem? {C j : Nat} (hj : j < C) (c : Nat) (hc : c < C) :
    (oneHotRow C j)[c]? = some (if c = j then 1 else 0) := by
  rcases eq_or_ne j c with h | h
  · subst h
    simp [oneHotRow, List.getElem?_set, hj]
  · simp [oneHotRow, List.getElem?_set, h, List.getElem?_replicate, hc, Ne.symm h]

/-! ### The write loop computes the functional one-hot rows -/

theorem set_append_cons {γ : Type} (pre : List γ) (a b : γ) (t : List γ) :
    (pre ++ a :: t).set pre.length b = pre ++ b :: t := by
  induction pre with
  | nil => rfl
  | cons x xs ih => simp [List.set, ih]

theorem writeOneHots_append (C : Nat) :
    ∀ (labels : List Int) (pre : List (List Int)),
      writeOneHots (pre ++ List.replicate labels.length (List.replicate C 0))
          pre.length labels =
        Except.map (fun rows => pre ++ rows) (oneHotsOf C labels) := by
  intro labels
  induction labels with
  | nil =>
    intro pre
    simp [writeOneHots, oneHotsOf, Except.map]
  | cons l rest ih =>
    intro pre
    rw [List.length_cons, List.replicate_succ]
    have hget :
        (pre ++ List.replicate C 0 :: List.replicate rest.length (List.replicate C 0))[pre.length]? =
          some (List.replicate C 0) := by
      rw [List.getElem?_append_right (le_refl pre.length)]
      simp
    rw [writeOneHots]
    cases hres : npResolve C l with
    | none =>
      have hset : setOneHotEntry
          (pre ++ List.replicate C 0 :: List.replicate rest.length (List.replicate C 0))
          pre.length l = .error .indexError := by
        simp [setOneHotEntry, hget, List.length_replicate, hres]
      rw [hset]
      simp [oneHotsOf, oneHotOf, hres, Except.map]
    | some j =>
      have hset : setOneHotEntry
          (pre ++ List.replicate C 0 :: List.replicate rest.length (List.replicate C 0))
          pre.length l =
          .ok (pre ++ oneHotRow C j :: List.replicate rest.length (List.replicate C 0)) := by
        simp only [setOneHotEntry, hget, List.length_replicate, hres]
        rw [set_append_cons]
        rfl
      rw [hset]
      have hrw : pre ++ oneHotRow C j :: List.replicate rest.length (List.replicate C 0) =
          (pre ++ [oneHotRow C j]) ++ List.replicate rest.length (List.replicate C 0) := by
        simp
      have hlen : pre.length + 1 = (pre ++ [oneHotRow C j]).length := by
        simp
      rw [hrw, hlen]
      dsimp only
      rw [ih (pre ++ [oneHotRow C j])]
      cases ho : oneHotsOf C rest with
      | error e => simp [oneHotsOf, oneHotOf, hres, ho, Except.map]
      | ok rs => simp [oneHotsOf, oneHotOf, hres, ho, Except.map]

theorem classificationTargets_eq (C : Nat) (labels : List Int) :
    classificationTargets C labels.length labels = oneHotsOf C labels := by
  have h := writeOneHots_append C labels []
  simp only [List.nil_append, List.length_nil] at h
  rw [classificationTargets, h]
  cases ho : oneHotsOf C labels <;> simp [Except.map]

/-! ### Inversion and totality lemmas for the one-hot rows -/

theorem oneHotsOf_ok_length {C : Nat} :
    ∀ {ls : List Int} {rs : List (List Int)},
      oneHotsOf C ls = .ok rs → rs.length = ls.length := by
  intro ls
  induction ls with
  | nil => intro rs h; simp [oneHotsOf] at h; simp [← h]
  | cons l rest ih =>
    intro rs h
    rw [oneHotsOf] at h
    cases h1 : oneHotOf C l with
    | error e => rw [h1] at h; exact absurd h (by simp)
    | ok r =>
      rw [h1] at h
      cases h2 : oneHotsOf C rest with
      | error e => rw [h2] at h; exact absurd h (by simp)
      | ok rs0 =>
        rw [h2] at h
        simp only [Except.ok.injEq] at h
        subst h
        simp [ih h2]

theorem oneHotsOf_ok_get {C : Nat} :
    ∀ {ls : List Int} {rs : List (List Int)},
      oneHotsOf C ls = .ok rs →
      ∀ {k : Nat} {l : Int}, ls[k]? = some l →
        ∃ j, npResolve C l = some j ∧ rs[k]? = some (oneHotRow C j) := by
  intro ls
  induction ls with
  | nil => intro rs _ k l hk; simp at hk
  | cons l0 rest ih =>
    intro rs h k l hk
    rw [oneHotsOf] at h
    cases h1 : oneHotOf C l0 with
    | error e => rw [h1] at h; exact absurd h (by simp)
    | ok r =>
      rw [h1] at h
      cases h2 : oneHotsOf C rest with
      | error e => rw [h2] at h; exact absurd h (by simp)
      | ok rs0 =>
        rw [h2] at h
        simp only [Except.ok.injEq] at h
        subst h
        cases k with
        | zero =>
          simp only [List.getElem?_cons_zero, Option.some.injEq] at hk
          subst hk
          rw [oneHotOf] at h1
          cases hres : npResolve C l0 with
          | none => rw [hres] at h1; exact absurd h1 (by simp)
          | some j =>
            rw [hres] at h1
            simp only [Except.ok.injEq] at h1
            exact ⟨j, rfl, by simp [← h1]⟩
        | succ k0 =>
          simp only [List.getElem?_cons_succ] at hk
          obtain ⟨j, hj, hr⟩ := ih h2 hk
          exact ⟨j, hj, by simpa using hr⟩

theorem oneHotsOf_ok_of_forall {C : Nat} :
    ∀ {ls : List Int}, (∀ l ∈ ls, (npResolve C l).isSome) →
      ∃ rs, oneHotsOf C ls = .ok rs := by
  intro ls
  induction ls with
  | nil => intro _; exact ⟨[], rfl⟩
  | cons l rest ih =>
    intro h
    have hl := h l (by simp)
    cases hres : npResolve C l with
    | none => rw [hres] at hl; simp at hl
    | some j =>
      obtain ⟨rs, hrs⟩ := ih (fun x hx => h x (by simp [hx]))
      exact ⟨oneHotRow C j :: rs, by simp [oneHotsOf, oneHotOf, hres, hrs]⟩

theorem oneHotsOf_error_of_bad {C : Nat} :
    ∀ {ls : List Int}, (∃ l ∈ ls, npResolve C l = none) →
      oneHotsOf C ls = .error .indexError := by
  intro ls
  induction ls with
  | nil => intro h; simp at h
  | cons l rest ih =>
    intro h
    rw [oneHotsOf]
    cases hres : npResolve C l with
    | none => simp [oneHotOf, hres]
    | some j =>
      obtain ⟨x, hx, hxbad⟩ := h
      rcases List.mem_cons.mp hx with rfl | hx0
      · rw [hres] at hxbad; exact absurd hxbad (by simp)
      · rw [ih ⟨x, hx0, hxbad⟩]
        simp [oneHotOf, hres]

/-! ### Inversion and totality lemmas for fancy indexing -/

theorem npGather_some_length {γ : Type} {xs : List γ} :
    ∀ {idx : List Nat} {ls : List γ},
      npGather xs idx = some ls → ls.length = idx.length := by
  intro idx
  induction idx with
  | nil => intro ls h; simp [npGather] at h; simp [← h]
  | cons i is ih =>
    intro ls h
    rw [npGather] at h
    cases h1 : xs[i]? with
    | none => rw [h1] at h; simp at h
    | some a =>
      rw [h1] at h
      cases h2 : npGather xs is with
      | none => rw [h2] at h; simp at h
      | some as =>
        rw [h2] at h
        simp only [Option.some.injEq] at h
        subst h
        simp [ih h2]

theorem npGather_some_get {γ : Type} {xs : List γ} :
    ∀ {idx : List Nat} {ls : List γ},
      npGather xs idx = some ls →
      ∀ {k v : Nat}, idx[k]? = some v → ls[k]? = xs[v]? := by
  intro idx
  induction idx with
  | nil => intro ls _ k v hk; simp at hk
  | cons i is ih =>
    intro ls h k v hk
    rw [npGather] at h
    cases h1 : xs[i]? with
    | none => rw [h1] at h; simp at h
    | some a =>
      rw [h1] at h
      cases h2 : npGather xs is with
      | none => rw [h2] at h; simp at h
      | some as =>
        rw [h2] at h
        simp only [Option.some.injEq] at h
        subst h
        cases k with
        | zero =>
          simp only [List.getElem?_cons_zero, Option.some.injEq] at hk
          subst hk
          simp [h1]
        | succ k0 =>
          simp only [List.getElem?_cons_succ] at hk
          simpa using ih h2 hk

theorem npGather_some_of_forall {γ : Type} {xs : List γ} :
    ∀ {idx : List Nat}, (∀ v ∈ idx, v < xs.length) →
      ∃ ls, npGather xs idx = some ls := by
  intro idx
  induction idx with
  | nil => intro _; exact ⟨[], rfl⟩
  | cons i is ih =>
    intro h
    have hi : i < xs.length := h i (by simp)
    obtain ⟨ls, hls⟩ := ih (fun v hv => h v (by simp [hv]))
    exact ⟨xs[i] :: ls, by simp [npGather, hls, List.getElem?_eq_getElem hi]⟩

/-! ### Inversion and totality lemmas for row gathering -/

theorem gatherRows_ok_length {α ι : Type} {g : PointGenerator α ι} :
    ∀ {idx : List Nat} {r : List α × List α × List ι × List ι},
      gatherRows g idx = .ok r →
      r.1.length = idx.length ∧ r.2.1.length = idx.length ∧
        r.2.2.1.length = idx.length ∧ r.2.2.2.length = idx.length := by
  intro idx
  induction idx with
  | nil =>
    intro r h
    rw [gatherRows] at h
    simp only [Except.ok.injEq] at h
    subst h
    exact ⟨rfl, rfl, rfl, rfl⟩
  | cons v vs ih =>
    intro r h
    rw [gatherRows] at h
    cases h1 : g.x_left[v]? <;> cases h2 : g.x_right[v]? <;>
      cases h3 : g.id_left[v]? <;> cases h4 : g.id_right[v]? <;>
      rw [h1, h2, h3, h4] at h
    case some.some.some.some a b c d =>
      cases h5 : gatherRows g vs with
      | error e => rw [h5] at h; exact absurd h (by simp [Except.map])
      | ok r0 =>
        rw [h5] at h
        simp only [Except.map, Except.ok.injEq] at h
        subst h
        obtain ⟨e1, e2, e3, e4⟩ := ih h5
        simp [e1, e2, e3, e4]
    all_goals exact absurd h (by simp)

theorem gatherRows_ok_get {α ι : Type} {g : PointGenerator α ι} :
    ∀ {idx : List Nat} {r : List α × List α × List ι × List ι},
      gatherRows g idx = .ok r →
      ∀ {k v : Nat}, idx[k]? = some v →
        r.1[k]? = g.x_left[v]? ∧ r.2.1[k]? = g.x_right[v]? ∧
          r.2.2.1[k]? = g.id_left[v]? ∧ r.2.2.2[k]? = g.id_right[v]? := by
  intro idx
  induction idx with
  | nil => intro r _ k v hk; simp at hk
  | cons v0 vs ih =>
    intro r h k v hk
    rw [gatherRows] at h
    cases h1 : g.x_left[v0]? <;> cases h2 : g.x_right[v0]? <;>
      cases h3 : g.id_left[v0]? <;> cases h4 : g.id_right[v0]? <;>
      rw [h1, h2, h3, h4] at h
    case some.some.some.some a b c d =>
      cases h5 : gatherRows g vs with
      | error e => rw [h5] at h; exact absurd h (by simp [Except.map])
      | ok r0 =>
        rw [h5] at h
        simp only [Except.map, Except.ok.injEq] at h
        subst h
        cases k with
        | zero =>
          simp only [List.getElem?_cons_zero, Option.some.injEq] at hk
          subst hk
          simp [h1, h2, h3, h4]
        | succ k0 =>
          simp only [List.getElem?_cons_succ] at hk
          simpa using ih h5 hk
    all_goals exact absurd h (by simp)

theorem gatherRows_ok_of_forall {α ι : Type} {g : PointGenerator α ι}
    (hwf : g.WellFormed) :
    ∀ {idx : List Nat}, (∀ v ∈ idx, v < g.y.length) →
      ∃ r, gatherRows g idx = .ok r := by
  intro idx
  induction idx with
  | nil => intro _; exact ⟨([], [], [], []), rfl⟩
  | cons v vs ih =>
    intro h
    have hv : v < g.y.length := h v (by simp)
    obtain ⟨r, hr⟩ := ih (fun x hx => h x (by simp [hx]))
    have hv1 : v < g.x_left.length := hwf.hxl ▸ hv
    have hv2 : v < g.x_right.length := hwf.hxr ▸ hv
    have hv3 : v < g.id_left.length := hwf.hil ▸ hv
    have hv4 : v < g.id_right.length := hwf.hir ▸ hv
    refine ⟨(g.x_left[v] :: r.1, g.x_right[v] :: r.2.1,
      g.id_left[v] :: r.2.2.1, g.id_right[v] :: r.2.2.2), ?_⟩
    rw [gatherRows]
    rw [List.getElem?_eq_getElem (hwf.hxl ▸ hv), List.getElem?_eq_getElem (hwf.hxr ▸ hv),
      List.getElem?_eq_getElem (hwf.hil ▸ hv), List.getElem?_eq_getElem (hwf.hir ▸ hv)]
    simp [hr, Except.map]

/-! ### Unfolding lemmas for the batch method -/

theorem getBatch_fst_ok {α ι : Type} {g : PointGenerator α ι} {idx : List Nat}
    {f : BatchFeatures α ι} {t : Targets}
    (h : (getBatch g idx).1 = .ok (f, t)) :
    computeTargets g idx = .ok t ∧
      gatherRows g idx = .ok (f.x_left, f.x_right, f.id_left, f.id_right) := by
  rw [getBatch] at h
  dsimp only at h
  cases h1 : computeTargets g idx with
  | error e => rw [h1] at h; exact absurd h (by simp)
  | ok t0 =>
    rw [h1] at h
    cases h2 : gatherRows g idx with
    | error e => rw [h2] at h; exact absurd h (by simp)
    | ok r =>
      rw [h2] at h
      simp only [Except.ok.injEq, Prod.mk.injEq] at h
      obtain ⟨hf, ht⟩ := h
      subst ht
      subst hf
      exact ⟨rfl, rfl⟩

theorem getBatch_fst_eq_ok {α ι : Type} {g : PointGenerator α ι} {idx : List Nat}
    {t : Targets} {r : List α × List α × List ι × List ι}
    (h1 : computeTargets g idx = .ok t) (h2 : gatherRows g idx = .ok r) :
    (getBatch g idx).1 = .ok (⟨r.1, r.2.1, r.2.2.1, r.2.2.2⟩, t) := by
  rw [getBatch]
  dsimp only
  rw [h1, h2]

theorem getBatch_fst_eq_error_of_targets {α ι : Type} {g : PointGenerator α ι}
    {idx : List Nat} {e : BatchError}
    (h : computeTargets g idx = .error e) : (getBatch g idx).1 = .error e := by
  rw [getBatch]
  dsimp only
  rw [h]

theorem computeTargets_classification_ok {α ι : Type} {g : PointGenerator α ι}
    {C : Nat} {idx : List Nat} {labels : List Int} {rows : List (List Int)}
    (htask : g.task = .classification C)
    (hg : npGather g.y idx = some labels)
    (hrows : oneHotsOf C labels = .ok rows) :
    computeTargets g idx = .ok (.classification rows) := by
  rw [computeTargets, htask]
  dsimp only
  rw [hg]
  dsimp only
  rw [← npGather_some_length hg, classificationTargets_eq, hrows]
  rfl

/-- Main helper for the Classification branch: with a well-formed
generator, in-bounds row indices, and every referenced label inside the
numpy-acceptable window `[-C, C)`, the call succeeds and row `k` of the
targets is the one-hot row at the resolved column of label `k`. -/
theorem getBatch_classification_spec {α ι : Type} {g : PointGenerator α ι}
    {C : Nat} {idx : List Nat}
    (htask : g.task = .classification C)
    (hwf : g.WellFormed)
    (hidx : ∀ v ∈ idx, v < g.y.length)
    (hlab : ∀ v ∈ idx, ∀ l ∈ g.y[v]?, -(C : Int) ≤ l ∧ l < (C : Int)) :
    ∃ (f : BatchFeatures α ι) (rows : List (List Int)),
      (getBatch g idx).1 = .ok (f, .classification rows) ∧
      rows.length = idx.length ∧
      ∀ (k v : Nat), idx[k]? = some v →
        ∃ (l : Int) (j : Nat), g.y[v]? = some l ∧ npResolve C l = some j ∧
          rows[k]? = some (oneHotRow C j) := by
  obtain ⟨labels, hg⟩ := npGather_some_of_forall hidx
  have hres : ∀ l ∈ labels, (npResolve C l).isSome := by
    intro l hl
    obtain ⟨k, hk⟩ := List.mem_iff_getElem?.mp hl
    have hklen : k < idx.length := by
      obtain ⟨hk2, -⟩ := List.getElem?_eq_some.mp hk
      have hlen := npGather_some_length hg
      omega
    have hkidx : idx[k]? = some idx[k] := List.getElem?_eq_getElem hklen
    have hy : labels[k]? = g.y[idx[k]]? := npGather_some_get hg hkidx
    have hmem : idx[k] ∈ idx := List.getElem?_mem hkidx
    have hly : l ∈ g.y[idx[k]]? := by
      rw [← hy]
      exact hk
    exact npResolve_isSome_of_inbounds (hlab idx[k] hmem l hly)
  obtain ⟨rows, hrows⟩ := oneHotsOf_ok_of_forall hres
  have htgt := computeTargets_classification_ok htask hg hrows
  obtain ⟨r, hr⟩ := gatherRows_ok_of_forall hwf hidx
  refine ⟨⟨r.1, r.2.1, r.2.2.1, r.2.2.2⟩, rows, getBatch_fst_eq_ok htgt hr, ?_, ?_⟩
  · rw [oneHotsOf_ok_length hrows, npGather_some_length hg]
  · intro k v hk
    have hvmem : v ∈ idx := List.getElem?_mem hk
    have hv : v < g.y.length := hidx v hvmem
    have hyv : g.y[v]? = some g.y[v] := List.getElem?_eq_getElem hv
    have hlk : labels[k]? = g.y[v]? := npGather_some_get hg hk
    have hlk2 : labels[k]? = some g.y[v] := by rw [hlk, hyv]
    obtain ⟨j, hj, hrk⟩ := oneHotsOf_ok_get hrows hlk2
    exact ⟨g.y[v], j, hyv, hj, hrk⟩

/-! ### Concrete generators used as test vectors -/

/-- The spec's running example, materialized: four rows with labels
`[0, 1, 0, 1]`, under a Ranking task. -/
def exampleRanking : PointGenerator (List Nat) String :=
  { task := .ranking
    x_left := [[1], [2], [3], [4]]
    x_right := [[10], [20], [30], [40]]
    y := [0, 1, 0, 1]
    id_left := ["L0", "L1", "L2", "L3"]
    id_right := ["R0", "R1", "R2", "R3"] }

/-- The same four rows under `Classification(num_classes=2)`. -/
def exampleClassification : PointGenerator (List Nat) String :=
  { exampleRanking with task := .classification 2 }

/-- One row whose stored label is `-1`, under two-class Classification. -/
def exampleNegLabel : PointGenerator (List Nat) String :=
  { task := .classification 2, x_left := [[7]], x_right := [[8]], y := [-1],
    id_left := ["L"], id_right := ["R"] }

/-- Two rows with labels `[-1, 0]`, under two-class Classification. -/
def exampleNegPair : PointGenerator (List Nat) String :=
  { task := .classification 2, x_left := [[7], [9]], x_right := [[8], [6]],
    y := [-1, 0], id_left := ["L", "l"], id_right := ["R", "r"] }

/-- One row whose stored label is `5`, under two-class Classification. -/
def exampleBigLabel : PointGenerator (List Nat) String :=
  { task := .classification 2, x_left := [[7]], x_right := [[8]], y := [5],
    id_left := ["L"], id_right := ["R"] }

/-- One row under a task that is neither Ranking nor Classification. -/
def exampleInvalidTask : PointGenerator (List Nat) String :=
  { task := .invalid "Regression", x_left := [[7]], x_right := [[8]], y := [0],
    id_left := ["L"], id_right := ["R"] }

/-! ### The claims -/

/-- C1: the claim says that under a Ranking task the targets returned by
`get_batch` are the stored labels at the positions of `index_array`, in
order, with length `len(index_array)`.  The code's Ranking branch instead
binds `batch_y = self.y`, the whole stored label array: at the spec's own
example (labels `[0, 1, 0, 1]`, `index_array = [2, 3]`) the call returns
targets `[0, 1, 0, 1]` of length 4, not the gathered `[0, 1]` of length 2,
while the features are gathered at `[2, 3]` as expected. -/
theorem ranking_targets_whole_label_array :
    (getBatch exampleRanking [2, 3]).1 =
      .ok (⟨[[3], [4]], [[30], [40]], ["L2", "L3"], ["R2", "R3"]⟩,
        .ranking [0, 1, 0, 1]) ∧
    Targets.ranking [0, 1, 0, 1] ≠ .ranking [0, 1] :=
  ⟨rfl, by decide⟩

/-- C2: under `Classification` with `C` classes, with in-range row indices
and every referenced label in `[0, C)`, the call succeeds and row `i` of
the targets has value `1` exactly at column `label[index_array[i]]` and
`0` at every other column; the targets have `len(index_array)` rows. -/
theorem classification_targets_one_hot {α ι : Type} {g : PointGenerator α ι}
    {C : Nat} {idx : List Nat}
    (htask : g.task = .classification C)
    (hwf : g.WellFormed)
    (hidx : ∀ v ∈ idx, v < g.y.length)
    (hlab : ∀ v ∈ idx, ∀ l ∈ g.y[v]?, 0 ≤ l ∧ l < (C : Int)) :
    ∃ (f : BatchFeatures α ι) (rows : List (List Int)),
      (getBatch g idx).1 = .ok (f, .classification rows) ∧
      rows.length = idx.length ∧
      ∀ (k v : Nat), idx[k]? = some v →
        ∃ (l : Int) (row : List Int), g.y[v]? = some l ∧ rows[k]? = some row ∧
          row.length = C ∧
          ∀ c : Nat, c < C → row[c]? = some (if c = l.toNat then 1 else 0) := by
  have hlab2 : ∀ v ∈ idx, ∀ l ∈ g.y[v]?, -(C : Int) ≤ l ∧ l < (C : Int) := by
    intro v hv l hl
    have h := hlab v hv l hl
    exact ⟨by omega, h.2⟩
  obtain ⟨f, rows, hok, hlen, hrow⟩ := getBatch_classification_spec htask hwf hidx hlab2
  refine ⟨f, rows, hok, hlen, ?_⟩
  intro k v hk
  obtain ⟨l, j, hyl, hj, hrk⟩ := hrow k v hk
  have hvmem : v ∈ idx := List.getElem?_mem hk
  have hb := hlab v hvmem l (Option.mem_def.mpr hyl)
  have hjl : j = l.toNat := by
    rw [npResolve_of_nonneg hb.1 hb.2] at hj
    exact (Option.some.injEq _ _).mp hj.symm
  have hjC : j < C := npResolve_lt hj
  refine ⟨l, oneHotRow C j, hyl, hrk, oneHotRow_length C j, ?_⟩
  intro c hc
  rw [oneHotRow_getElem? hjC c hc, hjl]

/-- Witness for C2 at the spec's example: `Classification(num_classes=2)`,
labels `[0, 1, 0, 1]`, `index_array = [0, 1]`. -/
theorem classification_targets_one_hot_witness :
    ∃ (f : BatchFeatures (List Nat) String) (rows : List (List Int)),
      (getBatch exampleClassification [0, 1]).1 = .ok (f, .classification rows) ∧
      rows.length = ([0, 1] : List Nat).length ∧
      ∀ (k v : Nat), ([0, 1] : List Nat)[k]? = some v →
        ∃ (l : Int) (row : List Int), exampleClassification.y[v]? = some l ∧
          rows[k]? = some row ∧ row.length = 2 ∧
          ∀ c : Nat, c < 2 → row[c]? = some (if c = l.toNat then 1 else 0) :=
  classification_targets_one_hot rfl ⟨rfl, rfl, rfl, rfl⟩ (by decide) (by decide)

/-- C3 counterexample: the claim says any referenced label outside
`[0, C)` makes the call fail with `IndexError`.  A label of `-1` with
`C = 2` is outside `[0, 2)`, yet numpy resolves the negative column index
to `C - 1` and the call succeeds with one-hot row `[0, 1]`. -/
theorem negative_label_does_not_raise :
    (∀ l ∈ exampleNegLabel.y, ¬ (0 ≤ l ∧ l < 2)) ∧
    (getBatch exampleNegLabel [0]).1 =
      .ok (⟨[[7]], [[8]], ["L"], ["R"]⟩, .classification [[0, 1]]) :=
  ⟨by decide, rfl⟩

/-- C3 amended: under `Classification` with `C` classes, if some
referenced label lies outside `[-C, C)` (the window numpy accepts, with
negative labels wrapping), the call fails with an IndexError-class error;
it does not clamp the label or drop the row. -/
theorem classification_label_out_of_bounds {α ι : Type} {g : PointGenerator α ι}
    {C : Nat} {idx : List Nat}
    (htask : g.task = .classification C)
    (hbad : ∃ v ∈ idx, ∃ l ∈ g.y[v]?, l < -(C : Int) ∨ (C : Int) ≤ l) :
    (getBatch g idx).1 = .error .indexError := by
  apply getBatch_fst_eq_error_of_targets
  rw [computeTargets, htask]
  dsimp only
  cases hg : npGather g.y idx with
  | none => rfl
  | some labels =>
    dsimp only
    obtain ⟨v, hv, l, hl, hbad2⟩ := hbad
    obtain ⟨k, hk⟩ := List.mem_iff_getElem?.mp hv
    have hlk : labels[k]? = g.y[v]? := npGather_some_get hg hk
    have hlk2 : labels[k]? = some l := by
      rw [hlk]
      exact Option.mem_def.mp hl
    have hlmem : l ∈ labels := List.getElem?_mem hlk2
    have hbadrows : oneHotsOf C labels = .error .indexError :=
      oneHotsOf_error_of_bad ⟨l, hlmem, npResolve_eq_none hbad2⟩
    rw [← npGather_some_length hg, classificationTargets_eq, hbadrows]
    rfl

/-- Witness for the amended C3: label `5` with `C = 2` raises. -/
theorem classification_label_out_of_bounds_witness :
    (getBatch exampleBigLabel [0]).1 = .error .indexError :=
  classification_label_out_of_bounds rfl
    ⟨0, by decide, 5, Option.mem_def.mpr rfl, by decide⟩

/-- C4: with a task that is neither Ranking nor Classification, every
call to `get_batch` fails with the `ValueError` built from the source's
(unformatted) message string. -/
theorem invalid_task_value_error {α ι : Type} {g : PointGenerator α ι}
    {idx : List Nat} {descr : String}
    (htask : g.task = .invalid descr) :
    (getBatch g idx).1 = .error (.valueError invalidTaskMsg) := by
  apply getBatch_fst_eq_error_of_targets
  rw [computeTargets, htask]

/-- Witness for C4 at a concrete non-Ranking, non-Classification task. -/
theorem invalid_task_value_error_witness :
    (getBatch exampleInvalidTask [0]).1 = .error (.valueError invalidTaskMsg) :=
  invalid_task_value_error rfl

/-- C5: whenever `get_batch` returns normally, each of the four feature
sequences has length `len(index_array)`. -/
theorem feature_lengths_match_index_array {α ι : Type} {g : PointGenerator α ι}
    {idx : List Nat} {f : BatchFeatures α ι} {t : Targets}
    (h : (getBatch g idx).1 = .ok (f, t)) :
    f.x_left.length = idx.length ∧ f.x_right.length = idx.length ∧
      f.id_left.length = idx.length ∧ f.id_right.length = idx.length := by
  obtain ⟨-, hg⟩ := getBatch_fst_ok h
  simpa using gatherRows_ok_length hg

/-- Witness for C5 at the Ranking example with `index_array = [2, 3]`. -/
theorem feature_lengths_match_index_array_witness :
    ([[3], [4]] : List (List Nat)).length = ([2, 3] : List Nat).length ∧
      ([[30], [40]] : List (List Nat)).length = ([2, 3] : List Nat).length ∧
      (["L2", "L3"] : List String).length = ([2, 3] : List Nat).length ∧
      (["R2", "R3"] : List String).length = ([2, 3] : List Nat).length :=
  feature_lengths_match_index_array
    (show (getBatch exampleRanking [2, 3]).1 =
      .ok (⟨[[3], [4]], [[30], [40]], ["L2", "L3"], ["R2", "R3"]⟩,
        .ranking [0, 1, 0, 1]) from rfl)

/-- C6: whenever `get_batch` returns normally, position `k` of each of
the batch's four feature sequences holds the stored value at row
`index_array[k]`; repeated indices yield repeated entries, since the
relation holds at every position of `index_array` separately. -/
theorem row_gathering_preserves_order {α ι : Type} {g : PointGenerator α ι}
    {idx : List Nat} {f : BatchFeatures α ι} {t : Targets}
    (h : (getBatch g idx).1 = .ok (f, t)) :
    ∀ (k v : Nat), idx[k]? = some v →
      f.x_left[k]? = g.x_left[v]? ∧ f.x_right[k]? = g.x_right[v]? ∧
        f.id_left[k]? = g.id_left[v]? ∧ f.id_right[k]? = g.id_right[v]? := by
  obtain ⟨-, hg⟩ := getBatch_fst_ok h
  intro k v hk
  simpa using gatherRows_ok_get hg hk

/-- Witness for C6 with the repeated `index_array = [1, 1, 0]`: position
0 of the batch holds row 1's stored values (and row 1 appears twice). -/
theorem row_gathering_preserves_order_witness :
    ([[2], [2], [1]] : List (List Nat))[0]? = exampleRanking.x_left[1]? ∧
      ([[20], [20], [10]] : List (List Nat))[0]? = exampleRanking.x_right[1]? ∧
      (["L1", "L1", "L0"] : List String)[0]? = exampleRanking.id_left[1]? ∧
      (["R1", "R1", "R0"] : List String)[0]? = exampleRanking.id_right[1]? :=
  row_gathering_preserves_order
    (show (getBatch exampleRanking [1, 1, 0]).1 =
      .ok (⟨[[2], [2], [1]], [[20], [20], [10]], ["L1", "L1", "L0"],
        ["R1", "R1", "R0"]⟩, .ranking [0, 1, 0, 1]) from rfl) 0 1 rfl

/-- C7: the method only reads the generator's attributes, so the state it
returns is the state it received, and a second call on that state with
the same `index_array` produces the identical output. -/
theorem get_batch_idempotent {α ι : Type} (g : PointGenerator α ι) (idx : List Nat) :
    (getBatch (getBatch g idx).2 idx).1 = (getBatch g idx).1 := rfl

/-- C8: under `Classification` with `C` classes, labels in `[-C, 0)` do
not make the call fail: with all referenced labels inside `[-C, C)` the
call succeeds, and a row whose label `l` is negative gets its `1` at
column `C + l`. -/
theorem negative_label_wraps_around {α ι : Type} {g : PointGenerator α ι}
    {C : Nat} {idx : List Nat}
    (htask : g.task = .classification C)
    (hwf : g.WellFormed)
    (hidx : ∀ v ∈ idx, v < g.y.length)
    (hlab : ∀ v ∈ idx, ∀ l ∈ g.y[v]?, -(C : Int) ≤ l ∧ l < (C : Int)) :
    ∃ (f : BatchFeatures α ι) (rows : List (List Int)),
      (getBatch g idx).1 = .ok (f, .classification rows) ∧
      rows.length = idx.length ∧
      ∀ (k v : Nat), idx[k]? = some v →
        ∀ l ∈ g.y[v]?, l < 0 →
          ∃ row : List Int, rows[k]? = some row ∧ row.length = C ∧
            ∀ c : Nat, c < C →
              row[c]? = some (if (c : Int) = (C : Int) + l then 1 else 0) := by
  obtain ⟨f, rows, hok, hlen, hrow⟩ := getBatch_classification_spec htask hwf hidx hlab
  refine ⟨f, rows, hok, hlen, ?_⟩
  intro k v hk l hl hneg
  obtain ⟨l0, j, hyl, hj, hrk⟩ := hrow k v hk
  have hll : l0 = l := by
    rw [Option.mem_def.mp hl] at hyl
    exact ((Option.some.injEq _ _).mp hyl).symm
  subst hll
  have hb := hlab v (List.getElem?_mem hk) l0 hl
  rw [npResolve_of_neg hneg hb.1] at hj
  have hjval : j = ((C : Int) + l0).toNat := ((Option.some.injEq _ _).mp hj).symm
  have hjC : j < C := npResolve_lt (npResolve_of_neg hneg hb.1 ▸ hj)
  refine ⟨oneHotRow C j, hrk, oneHotRow_length C j, ?_⟩
  intro c hc
  rw [oneHotRow_getElem? hjC c hc]
  congr 1
  rcases eq_or_ne c j with hcj | hcj
  · subst hcj
    have hcl : (c : Int) = (C : Int) + l0 := by omega
    simp [hcl]
  · have hcl : ¬ ((c : Int) = (C : Int) + l0) := by omega
    simp [hcj, hcl]

/-- Witness for C8: labels `[-1, 0]` with `C = 2`; the row indexed by the
negative label `-1` succeeds and gets its `1` at column `2 + (-1) = 1`. -/
theorem negative_label_wraps_around_witness :
    ∃ (f : BatchFeatures (List Nat) String) (rows : List (List Int)),
      (getBatch exampleNegPair [0, 1]).1 = .ok (f, .classification rows) ∧
      rows.length = ([0, 1] : List Nat).length ∧
      ∀ (k v : Nat), ([0, 1] : List Nat)[k]? = some v →
        ∀ l ∈ exampleNegPair.y[v]?, l < 0 →
          ∃ row : List Int, rows[k]? = some row ∧ row.length = 2 ∧
            ∀ c : Nat, c < 2 →
              row[c]? = some (if (c : Int) = (2 : Int) + l then 1 else 0) :=
  negative_label_wraps_around rfl ⟨rfl, rfl, rfl, rfl⟩ (by decide) (by decide)

/-- C9: an empty `index_array` succeeds for both recognized task variants
with all four feature sequences empty, and under `Classification` the
targets are the zero-row matrix `np.zeros((0, C))`. -/
theorem empty_index_array_succeeds {α ι : Type} {g : PointGenerator α ι}
    (h : g.task = .ranking ∨ ∃ C, g.task = .classification C) :
    (∃ t, (getBatch g []).1 = .ok (⟨[], [], [], []⟩, t)) ∧
    ∀ C, g.task = .classification C →
      (getBatch g []).1 = .ok (⟨[], [], [], []⟩, .classification []) := by
  have hgather : gatherRows g [] = .ok ([], [], [], []) := rfl
  rcases h with hr | ⟨C, hc⟩
  · refine ⟨⟨.ranking g.y, ?_⟩, ?_⟩
    · exact getBatch_fst_eq_ok (r := ([], [], [], []))
        (by rw [computeTargets, hr]) hgather
    · intro C hC
      rw [hr] at hC
      cases hC
  · have htgt : computeTargets g [] = .ok (.classification []) :=
      computeTargets_classification_ok hc (show npGather g.y [] = some [] from rfl)
        (show oneHotsOf C [] = .ok [] from rfl)
    refine ⟨⟨.classification [], ?_⟩, ?_⟩
    · exact getBatch_fst_eq_ok (r := ([], [], [], [])) htgt hgather
    · intro C0 hC0
      exact getBatch_fst_eq_ok (r := ([], [], [], [])) htgt hgather

/-- Witness for C9 at the Classification example with `C = 2`. -/
theorem empty_index_array_succeeds_witness :
    (∃ t, (getBatch exampleClassification []).1 = .ok (⟨[], [], [], []⟩, t)) ∧
    ∀ C, exampleClassification.task = .classification C →
      (getBatch exampleClassification []).1 =
        .ok (⟨[], [], [], []⟩, .classification []) :=
  empty_index_array_succeeds (Or.inr ⟨2, rfl⟩)

/-- C10: the method assigns to no attribute of `self`, so the generator's
materialized columnar state after any call — returning or raising — is
the state before it. -/
theorem get_batch_leaves_state_unchanged {α ι : Type}
    (g : PointGenerator α ι) (idx : List Nat) :
    (getBatch g idx).2 = g := rfl

end MatchZoo
